import Mathlib

/-!
Verification of the teeny static site generator (`src/cli.js`).

The development shallowly embeds the parts of `cli.js` that the checked
properties are about:

* the JavaScript string operations used by `processPage` to format
  front-matter dates (`toString().slice`, `parseInt`, `replace(/^0/, "")`,
  array indexing with `undefined` fallback);
* the page transform `processPage` over a flattened document model (a
  document region is the list of its sibling elements in document order;
  setting the insertion point's `innerHTML` splices the fragment's elements
  right after the insertion-point node, which is lookup- and
  sibling-insertion-faithful for the flat fragments this program builds);
* the directory walker `processDirectory` with JavaScript promise semantics
  (a dispatched page task always runs to completion; `Promise.all` reports
  the first rejection; a rejected `await` aborts the remaining statements);
* the aggregation engine `blogIndex` (stable sort by date descending,
  `splice`-based batching, prev/next controls, pagination widget state);
* the threaded-comment rendering loop of the `text`-variant `blogIndex`
  (from the code embedded in `src/README.md`).
-/

/-! ## JavaScript string primitives used by `processPage` -/

/-- Model of `s.slice(a, b)` (and `s.slice(a)` when `b? = none`) on a
JavaScript string, for the non-negative indices the code uses. -/
def jsSlice (s : String) (a : Nat) (b? : Option Nat) : String :=
  match b? with
  | some b => String.mk ((s.data.take b).drop a)
  | none => String.mk (s.data.drop a)

/-- Numeric value of a decimal digit character. -/
def digitVal (c : Char) : Nat := c.toNat - '0'.toNat

/-- Model of JavaScript `parseInt(s)` for the inputs the code produces:
the leading run of decimal digits is parsed; no digits means `NaN`,
modelled as `none`. -/
def parseIntJs (s : String) : Option Int :=
  match s.data.takeWhile Char.isDigit with
  | [] => none
  | ds => some (Int.ofNat (ds.foldl (fun acc c => acc * 10 + digitVal c) 0))

/-- Model of `s.replace(/^0/, "")`: removes at most one leading zero. -/
def stripLeadingZero (s : String) : String :=
  match s.data with
  | '0' :: rest => String.mk rest
  | _ => s

/-- Whether `pat` is a prefix of `l` (used to model JS `split` and
`startsWith`); structural so that concrete runs reduce. -/
def isPrefixOfChars : List Char → List Char → Bool
  | [], _ => true
  | _ :: _, [] => false
  | p :: ps, c :: cs => p = c && isPrefixOfChars ps cs

/-- Model of JS `s.startsWith(pre)`. -/
def jsStartsWith (s pre : String) : Bool := isPrefixOfChars pre.data s.data

/-- Splitter on a nonempty character pattern, greedy left-to-right and
non-overlapping like JS `split`; fueled by the input length so the
recursion is structural. -/
def charsSplitOnFuel (pat : List Char) : Nat → List Char → List (List Char)
  | _, [] => [[]]
  | 0, l => [l]
  | fuel + 1, c :: cs =>
    if pat ≠ [] ∧ isPrefixOfChars pat (c :: cs) = true then
      [] :: charsSplitOnFuel pat fuel (List.drop (pat.length - 1) cs)
    else
      match charsSplitOnFuel pat fuel cs with
      | [] => [[c]]
      | seg :: rest => (c :: seg) :: rest

/-- Model of JS `s.split(pat)` for a nonempty string pattern. -/
def jsSplit (s pat : String) : List String :=
  (charsSplitOnFuel pat.data s.data.length s.data).map String.mk

/-- Model of JS `parts.join(sep)`. -/
def joinWithSep (sep : String) : List String → String
  | [] => ""
  | [x] => x
  | x :: y :: rest => x ++ sep ++ joinWithSep sep (y :: rest)

/-- Model of `s.replace(pat, rep)` with a string pattern: only the first
occurrence is replaced. -/
def jsReplaceOnce (s pat rep : String) : String :=
  match jsSplit s pat with
  | [] => s
  | [x] => x
  | x :: y :: rest => x ++ rep ++ joinWithSep pat (y :: rest)

/-- The month-name array of `processPage` (`cli.js` line 132). -/
def calendar : List String :=
  ["January", "February", "March", "April", "May", "June", "July",
   "August", "September", "October", "November", "December"]

/-- Model of JavaScript `arr[i]` on an array of strings when the result is
concatenated into a string: an out-of-range index gives `undefined`, which
stringifies to `"undefined"`. -/
def jsArrayGetStr (l : List String) (i : Int) : String :=
  if 0 ≤ i then l.getD i.toNat "undefined" else "undefined"

/-- The date-formatting computation of `processPage` (`cli.js` lines
131-140): month from `calendar[parseInt(ds.slice(4,6)) - 1]`, day from
`ds.slice(6).replace(/^0/, "")`, year from `ds.slice(0,4)`, joined as
`month ++ " " ++ day ++ ", " ++ year`. `ds` is `frontmatter.date.toString()`. -/
def formatBlogDate (ds : String) : String :=
  let month := match parseIntJs (jsSlice ds 4 (some 6)) with
    | none => "undefined"
    | some n => jsArrayGetStr calendar (n - 1)
  let day := stripLeadingZero (jsSlice ds 6 none)
  let year := jsSlice ds 0 (some 4)
  month ++ " " ++ day ++ ", " ++ year

/-! Specification-side helpers for stating the date-format property. -/

/-- Two-digit zero-padded decimal string of `n < 100`; `pad4 y ++ pad2 m ++
pad2 d` is the `YYYYMMDD` form the spec talks about. -/
def pad2 (n : Nat) : String := String.mk [Nat.digitChar (n / 10), Nat.digitChar (n % 10)]

/-- English name of month `m` (1-based), as the spec writes it. -/
def monthName (m : Nat) : String := calendar.getD (m - 1) ""

/-! ## Flattened document model -/

/-- An element of a document region: tag name, `id` and `class` attributes
(empty string when absent), and its text/innerHTML payload for leaves. -/
structure Elem where
  tag : String
  id : String := ""
  cls : String := ""
  text : String := ""
  deriving Repr, DecidableEq

/-- The date span created by `processPage` (`cli.js` lines 138-140). -/
def dateSpan (content : String) : Elem :=
  { tag := "span", cls := "muted date", text := content }

/-- A template file parsed by `JSDOM.fromFile`: whether a `head` and an
`html` element exist, the doctype name (`none` when the file has no
doctype, in which case `document.doctype` is `null`), and the flattened
body region. -/
structure TDoc where
  hasHead : Bool := true
  hasHtml : Bool := true
  doctypeName : Option String := some "html"
  body : List Elem := []
  deriving Repr, DecidableEq

/-- The front-matter keys `processPage` reads. `date` holds the result of
`frontmatter.date.toString()`; an absent key is `none` (falsy). -/
structure FrontMatter where
  template : Option String := none
  publish : Option String := none
  title : Option String := none
  date : Option String := none
  deriving Repr, DecidableEq

/-- A serialized output document: doctype name, `document.title`, body region. -/
structure OutDoc where
  doctype : String
  title : Option String
  body : List Elem
  deriving Repr, DecidableEq

/-- Ways a `processPage` invocation can reject or exit (`cli.js`): a missing
template file makes `JSDOM.fromFile` reject; a missing
`templates/component_head.html` makes `fs.readFile` reject; dereferencing a
property of `undefined`/`null` (no `head`, no `h2` for the date span, no
doctype) throws a TypeError; a template without an `html` tag calls
`process.exit(1)`. -/
inductive PageErr where
  | templateNotFound (path : String)
  | missingFile (path : String)
  | typeError (what : String)
  | fatalExit
  deriving Repr, DecidableEq

/-- Result class of a successful `processPage`: suppressed by
`publish: "no"`, deferred to the blog collection, or written to disk. -/
inductive PageResult where
  | skipped
  | collected (fm : FrontMatter) (body : List Elem) (name : String)
  | written (path : String) (doc : OutDoc)
  deriving Repr, DecidableEq

/-- Full outcome of a successful `processPage`: the optional missing
`page-content` warning (holding the template path the log names) plus
the result class. -/
structure PageOut where
  warned : Option String := none
  out : PageResult
  deriving Repr, DecidableEq

/-- Observable build effects, in program order. `aggregate` marks one
`blogIndex()` invocation; `writeCNAME` the
`fs.writeFile('public/CNAME', ...)` call. -/
inductive Effect where
  | write (path : String) (doc : OutDoc)
  | warnNoPageContent (templatePath : String)
  | collectBlog (fm : FrontMatter) (body : List Elem) (name : String)
  | aggregate
  | writeCNAME
  deriving Repr, DecidableEq

/-- The effects a finished page task contributes, in the order the code
performs them (the warning log precedes the write/collect). -/
def pageEffects (po : PageOut) : List Effect :=
  (match po.warned with
   | some tp => [Effect.warnNoPageContent tp]
   | none => []) ++
  (match po.out with
   | PageResult.skipped => []
   | PageResult.collected fm b n => [Effect.collectBlog fm b n]
   | PageResult.written p d => [Effect.write p d])

/-- The file-system inputs `processPage` reads besides the page itself:
the parsed template files keyed by path, and the contents of
`templates/component_head.html` (`none` when the file is missing). -/
structure BuildEnv where
  templates : List (String × TDoc) := []
  componentHead : Option String := none
  deriving Repr, DecidableEq

/-- Template resolution (`cli.js` lines 90, 101-103). -/
def resolveTemplatePath (fm : FrontMatter) : String :=
  match fm.template with
  | some t => "templates/" ++ t ++ ".html"
  | none => "templates/default.html"

/-- Path parsing (`cli.js` lines 109-111): strip the first `pages/`, split
on `/`, pop the file name (truncated at `.md`), rejoin the rest. Returns
`(targetPath, pageName)`. -/
def parsePagePath (pagePath : String) : String × String :=
  let parts := jsSplit (jsReplaceOnce pagePath "pages/" "") "/"
  let pageName := (jsSplit (parts.getLastD "") ".md").headD ""
  let targetPath := joinWithSep "/" parts.dropLast
  (targetPath, pageName)

/-- Whether the template has the `page-content` insertion point
(`document.getElementById('page-content')`). -/
def hasPageContent (tdoc : TDoc) : Bool :=
  tdoc.body.any (fun e => e.id == "page-content")

/-- Setting the insertion point's `innerHTML` to the rendered Markdown: in
the flattened model the fragment's elements are spliced right after the
first element whose id is `page-content`; without an insertion point the
body is unchanged. -/
def spliceContent (body parsedHtml : List Elem) : List Elem :=
  match body with
  | [] => []
  | e :: rest =>
    if e.id = "page-content" then e :: (parsedHtml ++ rest)
    else e :: spliceContent rest parsedHtml

/-- The document body after the `page-content` step (`cli.js` lines 119-128). -/
def mergedBody (tdoc : TDoc) (parsedHtml : List Elem) : List Elem :=
  if hasPageContent tdoc then spliceContent tdoc.body parsedHtml else tdoc.body

/-- Insertion of the date span as the next sibling of the first `h2`
(`dateInsert[0].parentNode.insertBefore(dateSpan, dateInsert[0].nextSibling)`,
`cli.js` lines 141-142). With no `h2` in the document, `dateInsert[0]` is
`undefined` and the property access throws. -/
def insertAfterFirstH2 (sp : Elem) : List Elem → Except PageErr (List Elem)
  | [] => Except.error (PageErr.typeError "h2")
  | e :: rest =>
    if e.tag = "h2" then Except.ok (e :: sp :: rest)
    else
      match insertAfterFirstH2 sp rest with
      | Except.ok r => Except.ok (e :: r)
      | Except.error err => Except.error err

/-- The date step of `processPage` (`cli.js` lines 130-143): nothing when
`frontmatter.date` is falsy, else format and insert the date span after the
first `h2`. -/
def dateStep (fm : FrontMatter) (body : List Elem) : Except PageErr (List Elem) :=
  match fm.date with
  | none => Except.ok body
  | some ds => insertAfterFirstH2 (dateSpan (formatBlogDate ds)) body

/-- Title derivation (`cli.js` lines 152-162): the front-matter `title`,
else the first `h1`'s innerHTML, else none. -/
def titleOf (fm : FrontMatter) (body : List Elem) : Option String :=
  match fm.title with
  | some t => some t
  | none => (body.find? (fun e => e.tag == "h1")).map (fun e => e.text)

/-- The page transform (`cli.js` lines 89-172), step by step in source
order: `publish: "no"` skip, template resolution and load, path parsing,
`component_head` read and `head` injection, Markdown insertion into
`page-content` (warning when absent), date-span insertion, `html`-tag
check (`process.exit(1)`), title derivation, then either a push onto the
blog collection (when the target directory is `blog`) or a serialized
write. `parsedHtml` is the already-rendered Markdown fragment
(`marked.parse` is an out-of-scope pure collaborator). -/
def processPage (env : BuildEnv) (pagePath : String) (frontmatter : FrontMatter)
    (parsedHtml : List Elem) : Except PageErr PageOut :=
  if frontmatter.publish = some "no" then Except.ok { warned := none, out := PageResult.skipped }
  else
    let templatePath := resolveTemplatePath frontmatter
    match env.templates.lookup templatePath with
    | none => Except.error (PageErr.templateNotFound templatePath)
    | some tdoc =>
      let targetPath := (parsePagePath pagePath).1
      let pageName := (parsePagePath pagePath).2
      match env.componentHead with
      | none => Except.error (PageErr.missingFile "templates/component_head.html")
      | some _componentHead =>
        if tdoc.hasHead = false then Except.error (PageErr.typeError "head")
        else
          let warned := if hasPageContent tdoc then none else some templatePath
          let body1 := mergedBody tdoc parsedHtml
          match dateStep frontmatter body1 with
          | Except.error e => Except.error e
          | Except.ok body2 =>
            if tdoc.hasHtml = false then Except.error PageErr.fatalExit
            else
              let title := titleOf frontmatter body2
              if targetPath = "blog" then
                Except.ok { warned := warned, out := PageResult.collected frontmatter body2 pageName }
              else
                match tdoc.doctypeName with
                | none => Except.error (PageErr.typeError "doctype")
                | some dn =>
                  Except.ok { warned := warned
                            , out := PageResult.written
                                ("public/" ++ targetPath ++ "/" ++ pageName ++ ".html")
                                { doctype := dn, title := title, body := body2 } }

/-! ## Directory walker (`processDirectory`, `cli.js` lines 70-87) -/

/-- A content-directory tree entry: a Markdown file (front matter and
rendered body given, since reading and parsing are out-of-scope pure
collaborators) or a subdirectory. -/
inductive FsEntry where
  | file (name : String) (fm : FrontMatter) (md : List Elem)
  | dir (name : String) (entries : List FsEntry)
  deriving Repr

/-- End of one `processDirectory` call after its entry loop: a subdirectory
rejection (third component) propagates first; otherwise `await
Promise.all` rethrows the first page rejection (second component);
otherwise `blogIndex()` runs and `public/CNAME` is written. -/
def dirFinish (r : List Effect × Option PageErr × Option PageErr) : List Effect × Option PageErr :=
  match r with
  | (eff, _, some e) => (eff, some e)
  | (eff, some e, none) => (eff, some e)
  | (eff, none, none) => (eff ++ [Effect.aggregate, Effect.writeCNAME], none)

/-- The entry loop of `processDirectory`: subdirectories are recursed into
(and their own `blogIndex` and `CNAME` steps run) inline and awaited;
files whose name does not start with `.` are dispatched as concurrent
`processPage` tasks. JavaScript promises are not cancelled, so every
dispatched task contributes its effects even when a sibling rejects; a
rejecting subdirectory `await` aborts the loop, so later entries are never
dispatched. Returns (effects in dispatch order, first page rejection seen
by `Promise.all`, subdirectory rejection that aborted the loop). -/
def processEntries (env : BuildEnv) (path : String) : List FsEntry → List Effect × Option PageErr × Option PageErr
  | [] => ([], none, none)
  | FsEntry.dir name sub :: rest =>
    let sr := dirFinish (processEntries env (path ++ "/" ++ name) sub)
    match sr.2 with
    | some e => (sr.1, none, some e)
    | none =>
      let r := processEntries env path rest
      (sr.1 ++ r.1, r.2.1, r.2.2)
  | FsEntry.file name fm md :: rest =>
    if jsStartsWith name "." then processEntries env path rest
    else
      let r := processEntries env path rest
      match processPage env (path ++ "/" ++ name) fm md with
      | Except.ok po => (pageEffects po ++ r.1, r.2.1, r.2.2)
      | Except.error e => (r.1, some e, r.2.2)

/-- One `processDirectory` call: run the entry loop, then `Promise.all`,
`blogIndex()` and the `CNAME` write. Returns the effects and the call's
rejection, if any. -/
def processDirectory (env : BuildEnv) (path : String) (entries : List FsEntry) :
    List Effect × Option PageErr :=
  dirFinish (processEntries env path entries)

/-- Number of directories a tree occupies, the root call included when
adding 1: each `.dir` node triggers one recursive `processDirectory` call. -/
def totalDirs : List FsEntry → Nat
  | [] => 0
  | FsEntry.dir _ sub :: rest => 1 + totalDirs sub + totalDirs rest
  | FsEntry.file _ _ _ :: rest => totalDirs rest

def isAggregate : Effect → Bool
  | Effect.aggregate => true
  | _ => false

def isWriteCNAME : Effect → Bool
  | Effect.writeCNAME => true
  | _ => false

/-- Number of `blogIndex()` invocations recorded in an effect list. -/
def countAgg (l : List Effect) : Nat := l.countP isAggregate

/-- Number of `public/CNAME` writes recorded in an effect list. -/
def countCNAME (l : List Effect) : Nat := l.countP isWriteCNAME

/-! ## Aggregation engine (`blogIndex`, `cli.js` lines 174-273) -/

/-- The view of a collected tuple `[frontmatter, document, pageName]` that
the aggregation engine's control flow depends on: the numeric front-matter
`date` (sort key of `b[0].date - a[0].date`) and the page name `page[2]`. -/
structure BlogPage where
  date : Int
  name : String
  deriving Repr, DecidableEq

/-- Insertion step of the stable descending-by-`date` sort. -/
def insertByDateDesc (x : BlogPage) : List BlogPage → List BlogPage
  | [] => [x]
  | y :: ys => if y.date ≤ x.date then x :: y :: ys else y :: insertByDateDesc x ys

/-- Model of `blogPages.sort(function(a, b){return b[0].date - a[0].date})`
(`cli.js` line 177): `Array.prototype.sort` is stable (ECMAScript 2019), so
the result is the stable sort of the array by `date` descending. -/
def jsSortByDateDesc (l : List BlogPage) : List BlogPage :=
  l.foldr insertByDateDesc []

/-- The order in which concurrently dispatched page tasks push onto the
shared `blogPages` array: `sched` lists, in completion order, the indices
of the discovered pages (a permutation of the indices in any real run). -/
def completionOrder (discovered : List BlogPage) (sched : List Nat) : List BlogPage :=
  sched.filterMap (fun i => discovered[i]?)

/-- The prev/next controls of one individual blog-post output (`cli.js`
lines 211-221): `Newer`/`Older` hold the linked page name. -/
structure PostOut where
  name : String
  newer : Option String
  older : Option String
  deriving Repr, DecidableEq

/-- One individual post built at global position `i` (the running
`pageIndex`): `Newer` unless `pageIndex === 0`, pointing at
`originalBlogPages[pageIndex - 1]`; `Older` unless
`pageIndex === totalBlogPages - 1`, pointing at
`originalBlogPages[pageIndex + 1]`. -/
def mkPost (orig : List BlogPage) (total : Nat) (i : Nat) (p : BlogPage) : PostOut :=
  { name := p.name
  , newer := if i ≠ 0 then (orig.get? (i - 1)).map (fun q => q.name) else none
  , older := if i ≠ total - 1 then (orig.get? (i + 1)).map (fun q => q.name) else none }

/-- The posts of one batch, threading the global `pageIndex` from `i0`. -/
def batchPosts (orig : List BlogPage) (total : Nat) : Nat → List BlogPage → List PostOut
  | _, [] => []
  | i0, p :: ps => mkPost orig total i0 p :: batchPosts orig total (i0 + 1) ps

/-- One pagination control (`paginationBegin`/`Back`/`Forward`/`End`):
muted class set, or an href written into it. -/
structure PagCtl where
  muted : Bool := false
  href : Option String := none
  deriving Repr, DecidableEq

/-- The pagination widget state of one index page. -/
structure Pagination where
  paginationBegin : PagCtl := {}
  paginationBack : PagCtl := {}
  paginationForward : PagCtl := {}
  paginationEnd : PagCtl := {}
  pagesLabel : String := ""
  deriving Repr, DecidableEq

/-- The three sequential `if` blocks of `cli.js` lines 231-261, mirrored as
sequential record updates, followed by the `paginationPages` label. -/
def paginationState (pageCount totalIndexPages : Nat) : Pagination :=
  let p0 : Pagination := {}
  let p1 :=
    if pageCount = 1 then
      let a := { p0 with paginationBegin := { p0.paginationBegin with muted := true }
                       , paginationBack := { p0.paginationBack with muted := true } }
      if pageCount ≠ totalIndexPages then
        { a with paginationForward := { a.paginationForward with
                    href := some ("/" ++ Nat.repr (pageCount + 1)) }
               , paginationEnd := { a.paginationEnd with
                    href := some ("/" ++ Nat.repr totalIndexPages) } }
      else a
    else p0
  let p2 :=
    if pageCount = totalIndexPages then
      let a := { p1 with paginationForward := { p1.paginationForward with muted := true }
                       , paginationEnd := { p1.paginationEnd with muted := true } }
      if pageCount ≠ 1 then
        let b := { a with paginationBegin := { a.paginationBegin with href := some "/" } }
        if pageCount = 2 then
          { b with paginationBack := { b.paginationBack with href := some "/" } }
        else
          { b with paginationBack := { b.paginationBack with
              href := some ("/" ++ Nat.repr (pageCount - 1)) } }
      else a
    else p1
  let p3 :=
    if pageCount ≠ 1 ∧ pageCount ≠ totalIndexPages then
      let a := { p2 with paginationBegin := { p2.paginationBegin with href := some "/" } }
      let b :=
        if pageCount = 2 then
          { a with paginationBack := { a.paginationBack with href := some "/" } }
        else
          { a with paginationBack := { a.paginationBack with
              href := some ("/" ++ Nat.repr (pageCount - 1)) } }
      { b with paginationForward := { b.paginationForward with
                  href := some ("/" ++ Nat.repr (pageCount + 1)) }
             , paginationEnd := { b.paginationEnd with
                  href := some ("/" ++ Nat.repr totalIndexPages) } }
    else p2
  { p3 with pagesLabel := Nat.repr pageCount ++ " of " ++ Nat.repr totalIndexPages }

/-- One aggregation index page: its 1-based count (written to
`public/index.html` when 1, else `public/<pageCount>.html`), the names of
the batch's posts folded into it, and its pagination widget state. -/
structure IndexOut where
  pageCount : Nat
  postNames : List String
  pag : Pagination
  deriving Repr, DecidableEq

/-- Effects of the aggregation engine, in program order: each batch writes
its individual posts, then its index page. -/
inductive BIEffect where
  | post (p : PostOut)
  | index (i : IndexOut)
  deriving Repr, DecidableEq

/-- The `while (blogPages.length !== 0)` loop (`cli.js` lines 184-272):
each iteration splices off `k` pages, writes each one's individual output
(threading the global `pageIndex`), then writes one index page
(threading `pageCount`). Defined for `k ≥ 1` (the source fixes
`postsPerPage = 10`); the nonempty-case batch `x :: xs.take (k - 1)`
is `splice(0, k)`. -/
def blogIndexLoop (orig : List BlogPage) (total totalIdx k : Nat) :
    List BlogPage → Nat → Nat → List BIEffect
  | [], _, _ => []
  | x :: xs, pageCount, pageIndex =>
    let batch := x :: xs.take (k - 1)
    let posts := batchPosts orig total pageIndex batch
    posts.map BIEffect.post ++
      [BIEffect.index { pageCount := pageCount
                      , postNames := batch.map (fun p => p.name)
                      , pag := paginationState pageCount totalIdx }] ++
      blogIndexLoop orig total totalIdx k (xs.drop (k - 1)) (pageCount + 1)
        (pageIndex + batch.length)
  termination_by l _ _ => l.length
  decreasing_by simp [List.length_drop]; omega

/-- `postsPerPage` (`cli.js` line 15). -/
def postsPerPage : Nat := 10

/-- The aggregation engine (`cli.js` lines 174-273): stable-sort the
collection descending by date, keep the sorted copy `originalBlogPages`
for prev/next lookups, compute `totalIndexPages =
Math.ceil(length / postsPerPage)`, then run the batching loop starting at
`pageCount = 1`, `pageIndex = 0`. -/
def blogIndex (k : Nat) (blogPages : List BlogPage) : List BIEffect :=
  let sorted := jsSortByDateDesc blogPages
  let total := sorted.length
  let totalIdx := (total + k - 1) / k
  blogIndexLoop sorted total totalIdx k sorted 1 0

def isIndexEff : BIEffect → Bool
  | BIEffect.index _ => true
  | _ => false

/-- Number of aggregation index pages in an aggregation run's effects. -/
def countIndex (l : List BIEffect) : Nat := l.countP isIndexEff

/-- The individual posts of an aggregation run's effects, in write order. -/
def postsOf (l : List BIEffect) : List PostOut :=
  l.filterMap (fun e => match e with
    | BIEffect.post p => some p
    | _ => none)

/-! ## Threaded comments (`blogIndex` of the code in `src/README.md`) -/

/-- One parsed comment YAML file: recognized keys `_id`, `name`, `message`,
and the optional `replying_to_uid` parent reference. -/
structure CommentYml where
  _id : String
  name : String
  message : String
  replying_to_uid : Option String
  deriving Repr, DecidableEq

/-- The runtime failure of the comment loop: `commentListDiv.querySelector`
returned `null` for the parent selector and `.after` was called on it
(a TypeError). -/
inductive CommentErr where
  | nullParent (uid : String)
  deriving Repr, DecidableEq

/-- `element.after(new)` on the first list entry equal to `parent`:
`none` when no entry matches (the `querySelector` miss). -/
def insertAfterParent (parent cid : String) : List String → Option (List String)
  | [] => none
  | y :: ys =>
    if y = parent then some (y :: cid :: ys)
    else (insertAfterParent parent cid ys).map (fun r => y :: r)

/-- One iteration of the `commentsList.forEach` loop (`src/README.md`,
comment rendering in the `text`-variant `blogIndex`): the state is the
list of rendered comment-article ids (in sibling order) inside
`commentListDiv`. A top-level comment (`replying_to_uid` absent) is
appended; a reply is inserted immediately after the article with id
`comment-<replying_to_uid>`, and when `querySelector` finds no such
article the `.after` call throws. -/
def addComment (acc : List String) (c : CommentYml) : Except CommentErr (List String) :=
  match c.replying_to_uid with
  | none => Except.ok (acc ++ ["comment-" ++ c._id])
  | some p =>
    match insertAfterParent ("comment-" ++ p) ("comment-" ++ c._id) acc with
    | some acc2 => Except.ok acc2
    | none => Except.error (CommentErr.nullParent p)

/-- The whole comment-rendering loop over the comment files of one post,
in file-listing order. -/
def threadComments (cs : List CommentYml) : Except CommentErr (List String) :=
  cs.foldlM addComment []

/-! ## Remaining definitions used by the statements -/

/-- The body region a successful page transform carries: the written
document's body, or the collected tuple's document body. -/
def outBody : PageResult → Option (List Elem)
  | PageResult.skipped => none
  | PageResult.collected _ b _ => some b
  | PageResult.written _ d => some d.body

/-- A sibling Markdown file of one directory, before dispatch. -/
structure PageFile where
  name : String
  fm : FrontMatter
  md : List Elem

/-- The walker entry for a sibling file. -/
def fileEntry (f : PageFile) : FsEntry := FsEntry.file f.name f.fm f.md

/-- The page task dispatched for a sibling file. -/
def filePage (env : BuildEnv) (path : String) (f : PageFile) : Except PageErr PageOut :=
  processPage env (path ++ "/" ++ f.name) f.fm f.md

/-- The effects a sibling file's task contributes (none when it rejects). -/
def fileEffects (env : BuildEnv) (path : String) (f : PageFile) : List Effect :=
  match filePage env path f with
  | Except.ok po => pageEffects po
  | Except.error _ => []

/-- The effects of a run of sibling file tasks, in dispatch order. -/
def filesEffects (env : BuildEnv) (path : String) (fs : List PageFile) : List Effect :=
  (fs.map (fileEffects env path)).flatten

/-- The first rejection among sibling file tasks, in dispatch order (the
reason `Promise.all` rejects with in the canonical schedule). -/
def firstPageErr (env : BuildEnv) (path : String) : List PageFile → Option PageErr
  | [] => none
  | f :: rest =>
    match filePage env path f with
    | Except.error e => some e
    | Except.ok _ => firstPageErr env path rest

/-- Size measure of a directory tree, for induction. -/
def entriesSize : List FsEntry → Nat
  | [] => 0
  | FsEntry.dir _ sub :: rest => 1 + entriesSize sub + entriesSize rest
  | FsEntry.file _ _ _ :: rest => 1 + entriesSize rest

/-! Concrete inputs used by witnesses and counterexamples. -/

/-- A minimal default template: one `page-content` div, head/html/doctype
present. -/
def tdocDefault : TDoc := { body := [{ tag := "div", id := "page-content" }] }

/-- A build environment holding only the default template and a
`component_head` file. -/
def envDefault : BuildEnv :=
  { templates := [("templates/default.html", tdocDefault)], componentHead := some "head" }

/-- Two collected pages with equal dates, in discovery order `a` then `b`. -/
def pageA : BlogPage := { date := 20230101, name := "a" }

def pageB : BlogPage := { date := 20230101, name := "b" }

/-- Five collected pages with distinct descending dates. -/
def fiveBlogPages : List BlogPage :=
  [{ date := 5, name := "p1" }, { date := 4, name := "p2" }, { date := 3, name := "p3" },
   { date := 2, name := "p4" }, { date := 1, name := "p5" }]

/-- Three collected pages with distinct descending dates. -/
def threeBlogPages : List BlogPage :=
  [{ date := 3, name := "x" }, { date := 2, name := "y" }, { date := 1, name := "z" }]

/-- A sibling page that renders successfully against the default template. -/
def goodFile : PageFile :=
  { name := "about.md", fm := {}, md := [{ tag := "p", text := "hi" }] }

/-- A sibling page whose front matter names a template that does not exist. -/
def badFile : PageFile := { name := "bad.md", fm := { template := some "nope" }, md := [] }

/-- A top-level comment. -/
def topComment : CommentYml := { _id := "1", name := "Ann", message := "m", replying_to_uid := none }

/-- A reply whose `replying_to_uid` matches no rendered comment. -/
def badReply : CommentYml := { _id := "3", name := "Bob", message := "m2", replying_to_uid := some "9" }

/-- A reply arriving before any comment has been rendered. -/
def replyNoParent : CommentYml :=
  { _id := "2", name := "Eve", message := "hi", replying_to_uid := some "1" }

/-- A template with neither a `page-content` insertion point nor any `h2`. -/
def tdocNoPc : TDoc := { body := [{ tag := "nav" }] }

/-- A build environment whose default template is `tdocNoPc`. -/
def envNoPc : BuildEnv :=
  { templates := [("templates/default.html", tdocNoPc)], componentHead := some "head" }
theorem data_append (a b : String) : (a ++ b).data = a.data ++ b.data := rfl

theorem length_eq_data (s : String) : s.length = s.data.length := rfl

theorem take_append_of_length {α} (l₁ l₂ : List α) (n : Nat) (h : l₁.length = n) :
    (l₁ ++ l₂).take n = l₁ := by
  subst h; exact List.take_left l₁ l₂

theorem drop_append_of_length {α} (l₁ l₂ : List α) (n : Nat) (h : l₁.length = n) :
    (l₁ ++ l₂).drop n = l₂ := by
  subst h; exact List.drop_left l₁ l₂

/-- On a well-formed `YYYYMMDD` string the source's formatting code produces
`"<MonthName> <Day>, <Year>"` with no leading zero on the day. -/
theorem formatBlogDate_eq (ys : String) (m d : Nat) (hy : ys.length = 4)
    (hm1 : 1 ≤ m) (hm2 : m ≤ 12) (hd1 : 1 ≤ d) (hd2 : d ≤ 31) :
    formatBlogDate (ys ++ pad2 m ++ pad2 d) =
      monthName m ++ " " ++ Nat.repr d ++ ", " ++ ys := by
  have hdata : (ys ++ pad2 m ++ pad2 d).data = ys.data ++ ((pad2 m).data ++ (pad2 d).data) := by
    rw [data_append, data_append, List.append_assoc]
  have hylen : ys.data.length = 4 := by rw [← length_eq_data]; exact hy
  have hm2len : (pad2 m).data.length = 2 := rfl
  have hd2len : (pad2 d).data.length = 2 := rfl
  have hslice46 : jsSlice (ys ++ pad2 m ++ pad2 d) 4 (some 6) = pad2 m := by
    show String.mk (((ys ++ pad2 m ++ pad2 d).data.take 6).drop 4) = pad2 m
    rw [hdata, ← List.append_assoc]
    rw [take_append_of_length (ys.data ++ (pad2 m).data) (pad2 d).data 6
      (by rw [List.length_append, hylen, hm2len])]
    rw [drop_append_of_length ys.data (pad2 m).data 4 hylen]
  have hslice6 : jsSlice (ys ++ pad2 m ++ pad2 d) 6 none = pad2 d := by
    show String.mk ((ys ++ pad2 m ++ pad2 d).data.drop 6) = pad2 d
    rw [hdata, ← List.append_assoc]
    rw [drop_append_of_length (ys.data ++ (pad2 m).data) (pad2 d).data 6
      (by rw [List.length_append, hylen, hm2len])]
  have hslice04 : jsSlice (ys ++ pad2 m ++ pad2 d) 0 (some 4) = ys := by
    show String.mk (((ys ++ pad2 m ++ pad2 d).data.take 4).drop 0) = ys
    rw [hdata, List.drop_zero, take_append_of_length ys.data _ 4 hylen]
  have hmonth : (match parseIntJs (pad2 m) with
      | none => "undefined"
      | some n => jsArrayGetStr calendar (n - 1)) = monthName m := by
    interval_cases m <;> rfl
  have hday : stripLeadingZero (pad2 d) = Nat.repr d := by
    interval_cases d <;> rfl
  unfold formatBlogDate
  rw [hslice46, hslice6, hslice04, hmonth, hday]


/-! ## Lemmas about the page transform -/

theorem mem_spliceContent (md : List Elem) :
    ∀ body, ∀ e ∈ spliceContent body md, e ∈ body ∨ e ∈ md := by
  intro body
  induction body with
  | nil => intro e he; simp [spliceContent] at he
  | cons x rest ih =>
    intro e he
    simp only [spliceContent] at he
    by_cases hx : x.id = "page-content"
    · rw [if_pos hx] at he
      rcases List.mem_cons.mp he with h | h
      · exact Or.inl (h ▸ List.mem_cons_self x rest)
      · rcases List.mem_append.mp h with h2 | h2
        · exact Or.inr h2
        · exact Or.inl (List.mem_cons_of_mem x h2)
    · rw [if_neg hx] at he
      rcases List.mem_cons.mp he with h | h
      · exact Or.inl (h ▸ List.mem_cons_self x rest)
      · rcases ih e h with h2 | h2
        · exact Or.inl (List.mem_cons_of_mem x h2)
        · exact Or.inr h2

theorem insertAfterFirstH2_of_no_h2 (sp : Elem) :
    ∀ l, (∀ x ∈ l, x.tag ≠ "h2") →
      insertAfterFirstH2 sp l = Except.error (PageErr.typeError "h2") := by
  intro l
  induction l with
  | nil => intro _; rfl
  | cons x rest ih =>
    intro h
    simp only [insertAfterFirstH2]
    rw [if_neg (h x (List.mem_cons_self x rest)),
      ih (fun y hy => h y (List.mem_cons_of_mem x hy))]

theorem insertAfterFirstH2_split (sp h2e : Elem) (post : List Elem) (hh : h2e.tag = "h2") :
    ∀ pre, (∀ x ∈ pre, x.tag ≠ "h2") →
      insertAfterFirstH2 sp (pre ++ h2e :: post) = Except.ok (pre ++ h2e :: sp :: post) := by
  intro pre
  induction pre with
  | nil => intro _; simp [insertAfterFirstH2, hh]
  | cons x rest ih =>
    intro h
    simp only [List.cons_append, insertAfterFirstH2, List.append_eq]
    rw [if_neg (h x (List.mem_cons_self x rest)),
      ih (fun y hy => h y (List.mem_cons_of_mem x hy))]

theorem processPage_eval_ok (env : BuildEnv) (pagePath : String) (fm : FrontMatter)
    (md : List Elem) (tdoc : TDoc) (ch : String) (body2 : List Elem)
    (hpub : fm.publish ≠ some "no")
    (htpl : env.templates.lookup (resolveTemplatePath fm) = some tdoc)
    (hch : env.componentHead = some ch)
    (hhead : tdoc.hasHead = true)
    (hhtml : tdoc.hasHtml = true)
    (hds : dateStep fm (mergedBody tdoc md) = Except.ok body2) :
    processPage env pagePath fm md =
      (if (parsePagePath pagePath).1 = "blog" then
        Except.ok { warned := if hasPageContent tdoc then none else some (resolveTemplatePath fm)
                  , out := PageResult.collected fm body2 (parsePagePath pagePath).2 }
       else
        match tdoc.doctypeName with
        | none => Except.error (PageErr.typeError "doctype")
        | some dn =>
          Except.ok { warned := if hasPageContent tdoc then none else some (resolveTemplatePath fm)
                    , out := PageResult.written
                        ("public/" ++ (parsePagePath pagePath).1 ++ "/" ++
                          (parsePagePath pagePath).2 ++ ".html")
                        { doctype := dn, title := titleOf fm body2, body := body2 } }) := by
  unfold processPage
  rw [if_neg hpub]
  simp only [htpl, hch, hhead, hhtml, hds]
  simp

theorem processPage_eval_dateErr (env : BuildEnv) (pagePath : String) (fm : FrontMatter)
    (md : List Elem) (tdoc : TDoc) (ch : String) (e : PageErr)
    (hpub : fm.publish ≠ some "no")
    (htpl : env.templates.lookup (resolveTemplatePath fm) = some tdoc)
    (hch : env.componentHead = some ch)
    (hhead : tdoc.hasHead = true)
    (hds : dateStep fm (mergedBody tdoc md) = Except.error e) :
    processPage env pagePath fm md = Except.error e := by
  unfold processPage
  rw [if_neg hpub]
  simp only [htpl, hch, hhead, hds]
  simp

/-! ## Claim C6 -/

/-- C6: for every content file whose front matter sets `publish` to
`"no"`, the page transform is a silent no-op: it returns the skipped
outcome before touching the template, and the skipped outcome contributes
no effects (no output write, no blog collection, no log). -/
theorem processPage_publish_no_silent_noop (env : BuildEnv) (pagePath : String)
    (fm : FrontMatter) (md : List Elem) (h : fm.publish = some "no") :
    processPage env pagePath fm md = Except.ok { warned := none, out := PageResult.skipped } ∧
    pageEffects { warned := none, out := PageResult.skipped } = [] := by
  refine ⟨?_, rfl⟩
  unfold processPage
  rw [if_pos h]

/-- Witness for C6 at a concrete suppressed page. -/
theorem processPage_publish_no_silent_noop_witness :
    processPage envDefault "pages/secret.md" { publish := some "no" } [] =
      Except.ok { warned := none, out := PageResult.skipped } ∧
    pageEffects { warned := none, out := PageResult.skipped } = [] :=
  processPage_publish_no_silent_noop envDefault "pages/secret.md" { publish := some "no" } [] rfl

/-! ## Claim C5 -/

/-- C5: for every content file whose front matter carries a date in
`YYYYMMDD` form, the page transform formats it as
`"<MonthName> <Day>, <Year>"` with no leading zero on the day and inserts
it as the labeled date span (`class` `muted date`) immediately after the
first `h2` element of the merged document. -/
theorem processPage_date_format_and_insertion (env : BuildEnv) (pagePath : String)
    (fm : FrontMatter) (md : List Elem) (tdoc : TDoc) (ch ys : String) (m d : Nat)
    (pre post : List Elem) (h2e : Elem)
    (hpub : fm.publish ≠ some "no")
    (htpl : env.templates.lookup (resolveTemplatePath fm) = some tdoc)
    (hch : env.componentHead = some ch)
    (hhead : tdoc.hasHead = true)
    (hhtml : tdoc.hasHtml = true)
    (hdn : tdoc.doctypeName = some "html")
    (hdate : fm.date = some (ys ++ pad2 m ++ pad2 d))
    (hy : ys.length = 4) (hm1 : 1 ≤ m) (hm2 : m ≤ 12) (hd1 : 1 ≤ d) (hd2 : d ≤ 31)
    (hbody : mergedBody tdoc md = pre ++ h2e :: post)
    (hpre : ∀ x ∈ pre, x.tag ≠ "h2") (hh2 : h2e.tag = "h2") :
    ∃ po : PageOut, processPage env pagePath fm md = Except.ok po ∧
      outBody po.out =
        some (pre ++ h2e :: dateSpan (monthName m ++ " " ++ Nat.repr d ++ ", " ++ ys) :: post) := by
  have hfmt := formatBlogDate_eq ys m d hy hm1 hm2 hd1 hd2
  have hds : dateStep fm (mergedBody tdoc md) =
      Except.ok (pre ++ h2e ::
        dateSpan (monthName m ++ " " ++ Nat.repr d ++ ", " ++ ys) :: post) := by
    unfold dateStep
    rw [hdate, hbody, ← hfmt]
    exact insertAfterFirstH2_split _ h2e post hh2 pre hpre
  have heval := processPage_eval_ok env pagePath fm md tdoc ch _ hpub htpl hch hhead hhtml hds
  by_cases hb : (parsePagePath pagePath).1 = "blog"
  · rw [if_pos hb] at heval
    exact ⟨_, heval, rfl⟩
  · rw [if_neg hb, hdn] at heval
    exact ⟨_, heval, rfl⟩

/-- Witness for C5: date `20230105` on a page against the default template
renders the span `"January 5, 2023"` right after the `h2`. -/
theorem processPage_date_format_and_insertion_witness :
    ∃ po : PageOut,
      processPage envDefault "pages/post.md"
          { date := some ("2023" ++ pad2 1 ++ pad2 5) }
          [{ tag := "h2", text := "T" }, { tag := "p", text := "b" }] = Except.ok po ∧
      outBody po.out =
        some ([{ tag := "div", id := "page-content" }] ++
          { tag := "h2", text := "T" } ::
            dateSpan (monthName 1 ++ " " ++ Nat.repr 5 ++ ", " ++ "2023") ::
              [{ tag := "p", text := "b" }]) :=
  processPage_date_format_and_insertion envDefault "pages/post.md"
    { date := some ("2023" ++ pad2 1 ++ pad2 5) }
    [{ tag := "h2", text := "T" }, { tag := "p", text := "b" }]
    tdocDefault "head" "2023" 1 5
    [{ tag := "div", id := "page-content" }] [{ tag := "p", text := "b" }]
    { tag := "h2", text := "T" }
    (by decide) rfl rfl rfl rfl rfl rfl rfl (by decide) (by decide) (by decide) (by decide)
    (by decide) (by decide) rfl

/-! ## Claim C10 -/

/-- C10: when the front matter carries a date but neither the template body
nor the rendered Markdown contains an `h2` element (and there is no
`title` key), the transform dereferences `dateInsert[0].parentNode` with
`dateInsert[0]` undefined: it throws and the page's processing aborts
instead of skipping the date-span insertion. -/
theorem processPage_date_without_h2_throws (env : BuildEnv) (pagePath : String)
    (fm : FrontMatter) (md : List Elem) (tdoc : TDoc) (ch ds : String)
    (hpub : fm.publish ≠ some "no")
    (htpl : env.templates.lookup (resolveTemplatePath fm) = some tdoc)
    (hch : env.componentHead = some ch)
    (hhead : tdoc.hasHead = true)
    (hdate : fm.date = some ds)
    (_htitle : fm.title = none)
    (hno2t : ∀ e ∈ tdoc.body, e.tag ≠ "h2")
    (hno2m : ∀ e ∈ md, e.tag ≠ "h2") :
    processPage env pagePath fm md = Except.error (PageErr.typeError "h2") := by
  have hmerged : ∀ e ∈ mergedBody tdoc md, e.tag ≠ "h2" := by
    intro e he
    unfold mergedBody at he
    by_cases hpc : hasPageContent tdoc
    · rw [if_pos hpc] at he
      rcases mem_spliceContent md tdoc.body e he with h | h
      · exact hno2t e h
      · exact hno2m e h
    · rw [if_neg hpc] at he
      exact hno2t e he
  have hds : dateStep fm (mergedBody tdoc md) = Except.error (PageErr.typeError "h2") := by
    unfold dateStep
    rw [hdate]
    exact insertAfterFirstH2_of_no_h2 _ _ hmerged
  exact processPage_eval_dateErr env pagePath fm md tdoc ch _ hpub htpl hch hhead hds

/-- Witness for C10: a dated page whose body renders no `h2` against the
default template aborts with the `h2` TypeError. -/
theorem processPage_date_without_h2_throws_witness :
    processPage envDefault "pages/post.md" { date := some "20230105" }
        [{ tag := "p", text := "b" }] =
      Except.error (PageErr.typeError "h2") :=
  processPage_date_without_h2_throws envDefault "pages/post.md"
    { date := some "20230105" } [{ tag := "p", text := "b" }] tdocDefault "head" "20230105"
    (by decide) rfl rfl rfl rfl rfl (by decide) (by decide)

/-! ## Claim C8 -/

/-- C8 (amended): when the resolved template lacks the `page-content`
insertion point, the transform logs the warning and omits the rendered
Markdown; a non-blog page without a front-matter date is then still
emitted at its output path, with the template body unchanged and the
warning recorded before the write. The graceful degradation does not
extend to every such page: with a date present and no `h2` in the
template, the date step dereferences `undefined` and the page is never
emitted (the rendered body's own `h2`s cannot save it, since without the
insertion point they are never inserted). -/
theorem processPage_missing_insertion_point_degrades (env : BuildEnv) (pagePath : String)
    (fm : FrontMatter) (md : List Elem) (tdoc : TDoc) (ch dn : String)
    (hpub : fm.publish ≠ some "no")
    (htpl : env.templates.lookup (resolveTemplatePath fm) = some tdoc)
    (hch : env.componentHead = some ch)
    (hhead : tdoc.hasHead = true)
    (hhtml : tdoc.hasHtml = true)
    (hdn : tdoc.doctypeName = some dn)
    (hnopc : hasPageContent tdoc = false)
    (hblog : (parsePagePath pagePath).1 ≠ "blog") :
    (fm.date = none →
      processPage env pagePath fm md =
        Except.ok { warned := some (resolveTemplatePath fm)
                  , out := PageResult.written
                      ("public/" ++ (parsePagePath pagePath).1 ++ "/" ++
                        (parsePagePath pagePath).2 ++ ".html")
                      { doctype := dn, title := titleOf fm tdoc.body, body := tdoc.body } } ∧
      pageEffects { warned := some (resolveTemplatePath fm)
                  , out := PageResult.written
                      ("public/" ++ (parsePagePath pagePath).1 ++ "/" ++
                        (parsePagePath pagePath).2 ++ ".html")
                      { doctype := dn, title := titleOf fm tdoc.body, body := tdoc.body } } =
        [Effect.warnNoPageContent (resolveTemplatePath fm),
         Effect.write ("public/" ++ (parsePagePath pagePath).1 ++ "/" ++
           (parsePagePath pagePath).2 ++ ".html")
           { doctype := dn, title := titleOf fm tdoc.body, body := tdoc.body }]) ∧
    (∀ ds, fm.date = some ds → (∀ e ∈ tdoc.body, e.tag ≠ "h2") →
      processPage env pagePath fm md = Except.error (PageErr.typeError "h2")) := by
  have hmb : mergedBody tdoc md = tdoc.body := by
    unfold mergedBody
    rw [hnopc]
    simp
  constructor
  · intro hdate
    have hds : dateStep fm (mergedBody tdoc md) = Except.ok tdoc.body := by
      unfold dateStep
      rw [hdate, hmb]
    have heval := processPage_eval_ok env pagePath fm md tdoc ch _ hpub htpl hch hhead hhtml hds
    rw [if_neg hblog, hdn, hnopc] at heval
    refine ⟨?_, rfl⟩
    simpa using heval
  · intro ds hdate hno2
    have hds : dateStep fm (mergedBody tdoc md) = Except.error (PageErr.typeError "h2") := by
      unfold dateStep
      rw [hdate, hmb]
      exact insertAfterFirstH2_of_no_h2 _ _ hno2
    exact processPage_eval_dateErr env pagePath fm md tdoc ch _ hpub htpl hch hhead hds

/-- Counterexample for C8 as stated: a dated page whose resolved template
lacks the `page-content` insertion point (and, having no insertion point,
never receives the rendered body's `h2`) is not emitted at all - the
transform throws at the date step - contradicting "the page is still
emitted at its output path rather than failing". -/
theorem processPage_missing_insertion_point_counterexample :
    hasPageContent tdocNoPc = false ∧
    processPage envNoPc "pages/post.md" { date := some "20230105" }
        [{ tag := "h2", text := "T" }] =
      Except.error (PageErr.typeError "h2") :=
  ⟨rfl, rfl⟩

/-- Witness for C8 (amended): a dateless page against a template with no
insertion point is still emitted, with the warning logged and the Markdown
omitted. -/
theorem processPage_missing_insertion_point_degrades_witness :
    processPage envNoPc "pages/about.md" {} [{ tag := "p", text := "b" }] =
      Except.ok { warned := some (resolveTemplatePath {})
                , out := PageResult.written
                    ("public/" ++ (parsePagePath "pages/about.md").1 ++ "/" ++
                      (parsePagePath "pages/about.md").2 ++ ".html")
                    { doctype := "html", title := titleOf {} tdocNoPc.body
                    , body := tdocNoPc.body } } ∧
    pageEffects { warned := some (resolveTemplatePath {})
                , out := PageResult.written
                    ("public/" ++ (parsePagePath "pages/about.md").1 ++ "/" ++
                      (parsePagePath "pages/about.md").2 ++ ".html")
                    { doctype := "html", title := titleOf {} tdocNoPc.body
                    , body := tdocNoPc.body } } =
      [Effect.warnNoPageContent (resolveTemplatePath {}),
       Effect.write ("public/" ++ (parsePagePath "pages/about.md").1 ++ "/" ++
         (parsePagePath "pages/about.md").2 ++ ".html")
         { doctype := "html", title := titleOf {} tdocNoPc.body, body := tdocNoPc.body }] :=
  (processPage_missing_insertion_point_degrades envNoPc "pages/about.md" {}
    [{ tag := "p", text := "b" }] tdocNoPc "head" "html"
    (by decide) rfl rfl rfl rfl rfl rfl (by decide)).1 rfl

/-! ## Lemmas about the aggregation sort -/

theorem mem_insertByDateDesc (x : BlogPage) :
    ∀ l z, z ∈ insertByDateDesc x l ↔ z = x ∨ z ∈ l := by
  intro l
  induction l with
  | nil => intro z; simp [insertByDateDesc]
  | cons y ys ih =>
    intro z
    simp only [insertByDateDesc]
    by_cases hc : y.date ≤ x.date
    · rw [if_pos hc]
      simp [List.mem_cons]
    · rw [if_neg hc]
      simp only [List.mem_cons, ih z]
      tauto

theorem pairwise_insertByDateDesc (x : BlogPage) :
    ∀ l, List.Pairwise (fun a b => b.date ≤ a.date) l →
      List.Pairwise (fun a b => b.date ≤ a.date) (insertByDateDesc x l) := by
  intro l
  induction l with
  | nil => intro _; simp [insertByDateDesc]
  | cons y ys ih =>
    intro hp
    rcases List.pairwise_cons.mp hp with ⟨hy, hys⟩
    simp only [insertByDateDesc]
    by_cases hc : y.date ≤ x.date
    · rw [if_pos hc]
      refine List.pairwise_cons.mpr ⟨?_, hp⟩
      intro z hz
      rcases List.mem_cons.mp hz with h | h
      · exact h ▸ hc
      · exact le_trans (hy z h) hc
    · rw [if_neg hc]
      refine List.pairwise_cons.mpr ⟨?_, ih hys⟩
      intro z hz
      rcases (mem_insertByDateDesc x ys z).mp hz with h | h
      · exact h ▸ le_of_not_le hc
      · exact hy z h

theorem filter_insertByDateDesc (x : BlogPage) (dd : Int) :
    ∀ l, (insertByDateDesc x l).filter (fun p => p.date == dd) =
      if x.date = dd then x :: l.filter (fun p => p.date == dd)
      else l.filter (fun p => p.date == dd) := by
  intro l
  induction l with
  | nil =>
    by_cases hx : x.date = dd <;>
      simp [insertByDateDesc, List.filter_cons, hx]
  | cons y ys ih =>
    simp only [insertByDateDesc]
    by_cases hc : y.date ≤ x.date
    · rw [if_pos hc]
      by_cases hx : x.date = dd <;>
        simp [List.filter_cons, hx]
    · rw [if_neg hc]
      rw [List.filter_cons, List.filter_cons, ih]
      by_cases hx : x.date = dd
      · have hy : ¬ (y.date = dd) := fun h => hc (le_of_eq (h.trans hx.symm))
        simp [hx, hy]
      · by_cases hyd : y.date = dd <;> simp [hx, hyd]

theorem perm_insertByDateDesc (x : BlogPage) :
    ∀ l, List.Perm (insertByDateDesc x l) (x :: l) := by
  intro l
  induction l with
  | nil => simp [insertByDateDesc]
  | cons y ys ih =>
    simp only [insertByDateDesc]
    by_cases hc : y.date ≤ x.date
    · rw [if_pos hc]
    · rw [if_neg hc]
      exact (List.Perm.cons y ih).trans (List.Perm.swap x y ys)

theorem perm_jsSortByDateDesc (l : List BlogPage) : List.Perm (jsSortByDateDesc l) l := by
  induction l with
  | nil => simp [jsSortByDateDesc]
  | cons x xs ih =>
    have h1 : jsSortByDateDesc (x :: xs) = insertByDateDesc x (jsSortByDateDesc xs) := rfl
    rw [h1]
    exact (perm_insertByDateDesc x (jsSortByDateDesc xs)).trans (List.Perm.cons x ih)

/-! ## Claim C3 -/

/-- C3 (amended): the aggregation sort is a stable descending sort of the
collection in the order the concurrent transforms pushed onto it: the
result is ordered by `date` descending, is a permutation of the input,
and pages with equal dates retain their order in the pushed collection.
The pushed order equals the discovery order exactly when the transforms
complete in dispatch order (the identity schedule); an adversarial
completion schedule changes the tie order (see the counterexample). -/
theorem jsSortByDateDesc_stable_desc (l : List BlogPage) :
    List.Pairwise (fun a b => b.date ≤ a.date) (jsSortByDateDesc l) ∧
    List.Perm (jsSortByDateDesc l) l ∧
    (∀ dd : Int, (jsSortByDateDesc l).filter (fun p => p.date == dd) =
      l.filter (fun p => p.date == dd)) ∧
    (∀ discovered : List BlogPage,
      completionOrder discovered (List.range discovered.length) = discovered) := by
  refine ⟨?_, perm_jsSortByDateDesc l, ?_, ?_⟩
  · induction l with
    | nil => simp [jsSortByDateDesc]
    | cons x xs ih => exact pairwise_insertByDateDesc x (jsSortByDateDesc xs) ih
  · intro dd
    induction l with
    | nil => rfl
    | cons x xs ih =>
      have h1 : jsSortByDateDesc (x :: xs) = insertByDateDesc x (jsSortByDateDesc xs) := rfl
      rw [h1, filter_insertByDateDesc x dd (jsSortByDateDesc xs), ih, List.filter_cons]
      by_cases hx : x.date = dd <;> simp [hx]
  · intro discovered
    induction discovered with
    | nil => rfl
    | cons x xs ih =>
      simp only [completionOrder] at ih ⊢
      have hfun : ((fun i => (x :: xs)[i]?) ∘ Nat.succ) = (fun i => xs[i]?) := by
        funext i
        simp
      simp only [List.length_cons, List.range_succ_eq_map, List.filterMap_cons,
        List.getElem?_cons_zero, List.filterMap_map]
      rw [hfun, ih]

/-- Counterexample for C3 as stated: two pages with equal dates discovered
as `a` then `b`, whose transforms complete in the opposite order, are
pushed as `b, a`; the stable sort keeps `b` before `a`, so the tie does
not retain discovery order. -/
theorem jsSortByDateDesc_discovery_tie_counterexample :
    completionOrder [pageA, pageB] [1, 0] = [pageB, pageA] ∧
    jsSortByDateDesc (completionOrder [pageA, pageB] [1, 0]) = [pageB, pageA] ∧
    jsSortByDateDesc (completionOrder [pageA, pageB] [1, 0]) ≠
      jsSortByDateDesc [pageA, pageB] := by
  refine ⟨by decide, by decide, by decide⟩

/-! ## Lemmas about the batching loop -/

theorem countIndex_append (a b : List BIEffect) :
    countIndex (a ++ b) = countIndex a + countIndex b := by
  simp [countIndex, List.countP_append]

theorem countIndex_posts (l : List PostOut) : countIndex (l.map BIEffect.post) = 0 := by
  induction l with
  | nil => rfl
  | cons p ps ih => simp [countIndex, List.countP_cons, isIndexEff, ih]

theorem blogIndexLoop_countIndex_aux (orig : List BlogPage) (total totalIdx k : Nat)
    (hk : 1 ≤ k) :
    ∀ n (w : List BlogPage), w.length ≤ n → ∀ pc pi,
      countIndex (blogIndexLoop orig total totalIdx k w pc pi) = (w.length + k - 1) / k := by
  intro n
  induction n with
  | zero =>
    intro w hw pc pi
    have hnil : w = [] := List.eq_nil_of_length_eq_zero (Nat.le_zero.mp hw)
    subst hnil
    simp only [blogIndexLoop, List.length_nil, countIndex, List.countP_nil]
    rw [Nat.div_eq_of_lt (by omega)]
  | succ n ih =>
    intro w hw pc pi
    cases w with
    | nil =>
      simp only [blogIndexLoop, List.length_nil, countIndex, List.countP_nil]
      rw [Nat.div_eq_of_lt (by omega)]
    | cons x xs =>
      have hxs : xs.length ≤ n := by
        simpa [List.length_cons] using hw
      have hrec := ih (xs.drop (k - 1)) (by simp [List.length_drop]; omega) (pc + 1)
        (pi + (x :: xs.take (k - 1)).length)
      simp only [blogIndexLoop]
      rw [countIndex_append, countIndex_append, countIndex_posts, hrec]
      have hone : countIndex [BIEffect.index
          { pageCount := pc
          , postNames := (x :: xs.take (k - 1)).map (fun p => p.name)
          , pag := paginationState pc totalIdx }] = 1 := rfl
      rw [hone]
      simp only [List.length_drop, List.length_cons]
      rcases le_or_lt (k - 1) xs.length with hle | hlt
      · have e1 : xs.length - (k - 1) + k - 1 = xs.length := by omega
        have e2 : xs.length + 1 + k - 1 = xs.length + k := by omega
        rw [e1, e2, Nat.add_div_right _ (by omega : 0 < k)]
        exact Nat.zero_add _ ▸ Nat.add_comm 1 (xs.length / k)
      · have e1 : xs.length - (k - 1) = 0 := by omega
        have e2 : xs.length + 1 + k - 1 = xs.length + k := by omega
        rw [e1, e2, Nat.add_div_right _ (by omega : 0 < k)]
        rw [Nat.div_eq_of_lt (by omega : xs.length < k)]
        rw [Nat.div_eq_of_lt (by omega : 0 + k - 1 < k)]

/-! ## Claim C1 -/

/-- C1 (amended): for every batch size `k ≥ 1` the aggregation engine
produces exactly `ceil(n / k)` index pages for `n` collected pages — in
particular zero collected pages produce zero aggregation pages, not one
empty page (the `while (blogPages.length !== 0)` loop body never runs). -/
theorem blogIndex_index_page_count (k : Nat) (l : List BlogPage) (hk : 1 ≤ k) :
    countIndex (blogIndex k l) = (l.length + k - 1) / k := by
  unfold blogIndex
  have hlen : (jsSortByDateDesc l).length = l.length := (perm_jsSortByDateDesc l).length_eq
  rw [blogIndexLoop_countIndex_aux (jsSortByDateDesc l) (jsSortByDateDesc l).length
    (((jsSortByDateDesc l).length + k - 1) / k) k hk (jsSortByDateDesc l).length
    (jsSortByDateDesc l) le_rfl 1 0, hlen]

/-- Counterexample for C1 as stated: with zero collected pages the engine
produces zero aggregation pages at the source's `postsPerPage`, not the
one empty page the claim asserts. -/
theorem blogIndex_zero_pages_counterexample :
    countIndex (blogIndex postsPerPage []) = 0 ∧
    ¬ (countIndex (blogIndex postsPerPage []) = 1) := by
  have h : countIndex (blogIndex postsPerPage []) = 0 := by
    simp [blogIndex, jsSortByDateDesc, blogIndexLoop, countIndex]
  exact ⟨h, by rw [h]; decide⟩

/-- Witness for C1 (amended), matching the spec's own example: batch size
`2` and `5` collected pages produce `3` index pages. -/
theorem blogIndex_index_page_count_witness :
    countIndex (blogIndex 2 fiveBlogPages) = 3 := by
  have h := blogIndex_index_page_count 2 fiveBlogPages (by decide)
  rw [h]
  decide

/-! ## Lemmas about the individual-post outputs -/

theorem batchPosts_append (orig : List BlogPage) (total : Nat) :
    ∀ (a b : List BlogPage) (i0 : Nat),
      batchPosts orig total i0 (a ++ b) =
        batchPosts orig total i0 a ++ batchPosts orig total (i0 + a.length) b := by
  intro a
  induction a with
  | nil => intro b i0; simp [batchPosts]
  | cons p ps ih =>
    intro b i0
    simp only [List.cons_append, batchPosts, List.length_cons, List.append_eq, ih]
    have e : i0 + 1 + ps.length = i0 + (ps.length + 1) := by omega
    rw [e]

theorem postsOf_append (a b : List BIEffect) : postsOf (a ++ b) = postsOf a ++ postsOf b := by
  simp [postsOf, List.filterMap_append]

theorem postsOf_post_map (l : List PostOut) : postsOf (l.map BIEffect.post) = l := by
  induction l with
  | nil => rfl
  | cons p ps ih => simpa [postsOf, List.filterMap_cons] using ih

theorem blogIndexLoop_postsOf (orig : List BlogPage) (total totalIdx k : Nat)
    (_hk : 1 ≤ k) :
    ∀ n (w : List BlogPage), w.length ≤ n → ∀ pc pi,
      postsOf (blogIndexLoop orig total totalIdx k w pc pi) = batchPosts orig total pi w := by
  intro n
  induction n with
  | zero =>
    intro w hw pc pi
    have hnil : w = [] := List.eq_nil_of_length_eq_zero (Nat.le_zero.mp hw)
    subst hnil
    simp [blogIndexLoop, postsOf, batchPosts]
  | succ n ih =>
    intro w hw pc pi
    cases w with
    | nil => simp [blogIndexLoop, postsOf, batchPosts]
    | cons x xs =>
      have hxs : xs.length ≤ n := by
        simpa [List.length_cons] using hw
      have hrec := ih (xs.drop (k - 1)) (by simp [List.length_drop]; omega) (pc + 1)
        (pi + (x :: xs.take (k - 1)).length)
      simp only [blogIndexLoop]
      rw [postsOf_append, postsOf_append, postsOf_post_map, hrec]
      have hidx : postsOf [BIEffect.index
          { pageCount := pc
          , postNames := (x :: xs.take (k - 1)).map (fun p => p.name)
          , pag := paginationState pc totalIdx }] = [] := rfl
      rw [hidx, List.append_nil, ← batchPosts_append]
      have hsplit : (x :: xs.take (k - 1)) ++ xs.drop (k - 1) = x :: xs := by
        simp [List.take_append_drop]
      rw [hsplit]

theorem batchPosts_getElem (orig : List BlogPage) (total : Nat) :
    ∀ (w : List BlogPage) (i0 i : Nat),
      (batchPosts orig total i0 w)[i]? =
        (w[i]?).map (fun p => mkPost orig total (i0 + i) p) := by
  intro w
  induction w with
  | nil => intro i0 i; simp [batchPosts]
  | cons p ps ih =>
    intro i0 i
    cases i with
    | zero => simp [batchPosts]
    | succ j =>
      simp only [batchPosts, List.getElem?_cons_succ, List.getElem?_cons_succ, ih (i0 + 1) j]
      have e : i0 + 1 + j = i0 + (j + 1) := by omega
      rw [e]

/-! ## Claim C4 -/

/-- C4: in the individual outputs written by the aggregation engine, the
post at sorted position `i` has no `Newer` control exactly when it is the
globally most-recent entry (`i = 0`), no `Older` control exactly when it
is the globally oldest (`i = n - 1`), and otherwise both controls point at
the immediately adjacent entries of the sorted order. -/
theorem blogIndex_prev_next_controls (k : Nat) (l : List BlogPage) (i : Nat) (p : BlogPage)
    (hk : 1 ≤ k) (hp : (jsSortByDateDesc l)[i]? = some p) :
    (postsOf (blogIndex k l))[i]? = some
      { name := p.name
      , newer := if i = 0 then none
                 else ((jsSortByDateDesc l)[i - 1]?).map (fun q => q.name)
      , older := if i = (jsSortByDateDesc l).length - 1 then none
                 else ((jsSortByDateDesc l)[i + 1]?).map (fun q => q.name) } := by
  unfold blogIndex
  rw [blogIndexLoop_postsOf (jsSortByDateDesc l) (jsSortByDateDesc l).length
    (((jsSortByDateDesc l).length + k - 1) / k) k hk (jsSortByDateDesc l).length
    (jsSortByDateDesc l) le_rfl 1 0]
  rw [batchPosts_getElem (jsSortByDateDesc l) (jsSortByDateDesc l).length
    (jsSortByDateDesc l) 0 i, hp]
  simp [mkPost, ite_not]

/-- Witness for C4: three pages sorted `x, y, z`; the middle page has both
controls pointing at its neighbours. -/
theorem blogIndex_prev_next_controls_witness :
    (postsOf (blogIndex 2 threeBlogPages))[1]? =
      some { name := "y", newer := some "x", older := some "z" } := by
  have h := blogIndex_prev_next_controls 2 threeBlogPages 1 { date := 2, name := "y" }
    (by decide) (by decide)
  rw [h]
  decide

/-! ## Lemmas about the directory walker -/

theorem countAgg_append (a b : List Effect) : countAgg (a ++ b) = countAgg a + countAgg b := by
  simp [countAgg, List.countP_append]

theorem countCNAME_append (a b : List Effect) :
    countCNAME (a ++ b) = countCNAME a + countCNAME b := by
  simp [countCNAME, List.countP_append]

theorem pageEffects_countAgg (po : PageOut) : countAgg (pageEffects po) = 0 := by
  rcases po with ⟨w, o⟩
  cases w <;> cases o <;>
    simp [pageEffects, countAgg, List.countP_cons, List.countP_nil, isAggregate]

theorem pageEffects_countCNAME (po : PageOut) : countCNAME (pageEffects po) = 0 := by
  rcases po with ⟨w, o⟩
  cases w <;> cases o <;>
    simp [pageEffects, countCNAME, List.countP_cons, List.countP_nil, isWriteCNAME]

theorem dirFinish_of_none (r : List Effect × Option PageErr × Option PageErr)
    (h : (dirFinish r).2 = none) :
    r.2.1 = none ∧ r.2.2 = none ∧
    (dirFinish r).1 = r.1 ++ [Effect.aggregate, Effect.writeCNAME] := by
  rcases r with ⟨eff, p, a⟩
  cases p <;> cases a <;> simp [dirFinish] at h ⊢

theorem processEntries_agg_count :
    ∀ n (entries : List FsEntry), entriesSize entries ≤ n → ∀ (env : BuildEnv) (path : String),
      (processEntries env path entries).2.2 = none →
      countAgg (processEntries env path entries).1 = totalDirs entries ∧
      countCNAME (processEntries env path entries).1 = totalDirs entries := by
  intro n
  induction n with
  | zero =>
    intro entries hsz env path
    cases entries with
    | nil => intro _; simp [processEntries, countAgg, countCNAME, totalDirs]
    | cons e rest =>
      exfalso
      cases e <;> simp [entriesSize] at hsz
  | succ n ih =>
    intro entries hsz env path
    cases entries with
    | nil => intro _; simp [processEntries, countAgg, countCNAME, totalDirs]
    | cons e rest =>
      cases e with
      | file name fm md =>
        have hrest : entriesSize rest ≤ n := by simp [entriesSize] at hsz; omega
        simp only [processEntries]
        by_cases hs : jsStartsWith name "." = true
        · rw [if_pos hs]
          intro h
          have := ih rest hrest env path h
          simpa [totalDirs] using this
        · rw [if_neg hs]
          cases hpp : processPage env (path ++ "/" ++ name) fm md with
          | ok po =>
            intro h
            have hr := ih rest hrest env path h
            constructor
            · rw [countAgg_append, pageEffects_countAgg, hr.1]
              simp [totalDirs]
            · rw [countCNAME_append, pageEffects_countCNAME, hr.2]
              simp [totalDirs]
          | error e =>
            intro h
            have hr := ih rest hrest env path h
            simpa [totalDirs] using hr
      | dir name sub =>
        have hsub : entriesSize sub ≤ n := by simp [entriesSize] at hsz; omega
        have hrest : entriesSize rest ≤ n := by simp [entriesSize] at hsz; omega
        simp only [processEntries]
        cases hd : (dirFinish (processEntries env (path ++ "/" ++ name) sub)).2 with
        | some e => intro h; simp at h
        | none =>
          intro h
          obtain ⟨hp1, hp2, heff⟩ := dirFinish_of_none _ hd
          have hsubc := ih sub hsub env (path ++ "/" ++ name) hp2
          have hrc := ih rest hrest env path h
          constructor
          · rw [countAgg_append, heff, countAgg_append, hsubc.1, hrc.1]
            simp [totalDirs, countAgg, List.countP_cons, List.countP_nil, isAggregate]
            omega
          · rw [countCNAME_append, heff, countCNAME_append, hsubc.2, hrc.2]
            simp [totalDirs, countCNAME, List.countP_cons, List.countP_nil, isWriteCNAME]
            omega

/-! ## Claim C2 -/

/-- C2 (amended): the walker does not invoke the aggregation engine exactly
once per build; it invokes it once at the end of every `processDirectory`
call — `1 + (number of nested subdirectories)` times for an error-free
tree — and follows each invocation with the custom-domain marker write.
Only for a tree with no subdirectories is the invocation unique. -/
theorem processDirectory_aggregate_per_directory (env : BuildEnv) (path : String)
    (entries : List FsEntry) (h : (processDirectory env path entries).2 = none) :
    countAgg (processDirectory env path entries).1 = 1 + totalDirs entries ∧
    countCNAME (processDirectory env path entries).1 = 1 + totalDirs entries := by
  unfold processDirectory at h ⊢
  obtain ⟨hp1, hp2, heff⟩ := dirFinish_of_none _ h
  have hc := processEntries_agg_count (entriesSize entries) entries le_rfl env path hp2
  constructor
  · rw [heff, countAgg_append, hc.1]
    simp [countAgg, List.countP_cons, List.countP_nil, isAggregate]
    omega
  · rw [heff, countCNAME_append, hc.2]
    simp [countCNAME, List.countP_cons, List.countP_nil, isWriteCNAME]
    omega

/-- Counterexample for C2 as stated: a content tree with one (empty)
subdirectory triggers two `blogIndex()` invocations — one at the end of
the subdirectory's walk and one at the end of the root walk — not exactly
one. -/
theorem processDirectory_single_aggregate_counterexample :
    countAgg (processDirectory {} "pages" [FsEntry.dir "sub" []]).1 = 2 ∧
    ¬ (countAgg (processDirectory {} "pages" [FsEntry.dir "sub" []]).1 = 1) := by
  have h : countAgg (processDirectory {} "pages" [FsEntry.dir "sub" []]).1 = 2 := by
    simp [processDirectory, processEntries, dirFinish, countAgg, List.countP_cons,
      List.countP_nil, isAggregate]
  exact ⟨h, by rw [h]; decide⟩

/-- Witness for C2 (amended) at the same one-subdirectory tree: the
invocation count is `1 + totalDirs`, hence `2`. -/
theorem processDirectory_aggregate_per_directory_witness :
    countAgg (processDirectory {} "pages" [FsEntry.dir "sub" []]).1 =
      1 + totalDirs [FsEntry.dir "sub" []] ∧
    countCNAME (processDirectory {} "pages" [FsEntry.dir "sub" []]).1 =
      1 + totalDirs [FsEntry.dir "sub" []] :=
  processDirectory_aggregate_per_directory {} "pages" [FsEntry.dir "sub" []]
    (by simp [processDirectory, processEntries, dirFinish])

/-! ## Lemmas about sibling file runs -/

theorem filesEffects_cons (env : BuildEnv) (path : String) (f : PageFile) (fs : List PageFile) :
    filesEffects env path (f :: fs) = fileEffects env path f ++ filesEffects env path fs := by
  simp [filesEffects]

theorem filesEffects_append (env : BuildEnv) (path : String) (a b : List PageFile) :
    filesEffects env path (a ++ b) = filesEffects env path a ++ filesEffects env path b := by
  simp [filesEffects]

theorem processEntries_files (env : BuildEnv) (path : String) :
    ∀ fs : List PageFile, (∀ f ∈ fs, jsStartsWith f.name "." = false) →
      processEntries env path (fs.map fileEntry) =
        (filesEffects env path fs, firstPageErr env path fs, none) := by
  intro fs
  induction fs with
  | nil => intro _; simp [processEntries, filesEffects, firstPageErr]
  | cons f rest ih =>
    intro h
    have hf : jsStartsWith f.name "." = false := h f (List.mem_cons_self f rest)
    have hrest := ih (fun g hg => h g (List.mem_cons_of_mem f hg))
    simp only [List.map_cons, processEntries, fileEntry]
    rw [if_neg (by rw [hf]; intro hc; cases hc), hrest]
    cases hpp : processPage env (path ++ "/" ++ f.name) f.fm f.md with
    | ok po =>
      simp only [filesEffects_cons, firstPageErr]
      rw [show fileEffects env path f = pageEffects po by
        unfold fileEffects filePage; rw [hpp]]
      rw [show (match filePage env path f with
            | Except.error e => some e
            | Except.ok _ => firstPageErr env path rest) = firstPageErr env path rest by
        unfold filePage; rw [hpp]]
    | error e =>
      simp only [filesEffects_cons, firstPageErr]
      rw [show fileEffects env path f = [] by
        unfold fileEffects filePage; rw [hpp]]
      rw [show (match filePage env path f with
            | Except.error e => some e
            | Except.ok _ => firstPageErr env path rest) = some e by
        unfold filePage; rw [hpp]]
      simp

theorem firstPageErr_all_ok (env : BuildEnv) (path : String) :
    ∀ a : List PageFile, (∀ f ∈ a, ∃ po, filePage env path f = Except.ok po) →
      ∀ b, firstPageErr env path (a ++ b) = firstPageErr env path b := by
  intro a
  induction a with
  | nil => intro _ b; rfl
  | cons f rest ih =>
    intro h b
    obtain ⟨po, hpo⟩ := h f (List.mem_cons_self f rest)
    simp only [List.cons_append, firstPageErr]
    rw [hpo]
    exact ih (fun g hg => h g (List.mem_cons_of_mem f hg)) b

theorem fileEffects_of_error (env : BuildEnv) (path : String) (f : PageFile) (e : PageErr)
    (h : filePage env path f = Except.error e) : fileEffects env path f = [] := by
  unfold fileEffects
  rw [h]

/-! ## Claim C7 -/

/-- C7: a page whose resolved template file does not exist rejects with
`TemplateNotFound`, and that failure is isolated to the page: every
sibling file dispatched in the same (flat) directory still runs to
completion and its effects are all present — JavaScript promises are not
cancelled by a sibling rejection — while the directory's own result
carries the `TemplateNotFound` rejection and the failing page contributes
nothing. -/
theorem processDirectory_templateNotFound_isolated (env : BuildEnv) (path : String)
    (pre post : List PageFile) (bad : PageFile) (tp : String)
    (hnames : ∀ f ∈ pre ++ bad :: post, jsStartsWith f.name "." = false)
    (hbad : filePage env path bad = Except.error (PageErr.templateNotFound tp))
    (hpre : ∀ f ∈ pre, ∃ po, filePage env path f = Except.ok po)
    (_hpost : ∀ f ∈ post, ∃ po, filePage env path f = Except.ok po) :
    processDirectory env path ((pre ++ bad :: post).map fileEntry) =
      (filesEffects env path pre ++ filesEffects env path post,
       some (PageErr.templateNotFound tp)) := by
  unfold processDirectory
  rw [processEntries_files env path (pre ++ bad :: post) hnames]
  have heff : filesEffects env path (pre ++ bad :: post) =
      filesEffects env path pre ++ filesEffects env path post := by
    rw [filesEffects_append, filesEffects_cons, fileEffects_of_error env path bad _ hbad]
    simp
  have herr : firstPageErr env path (pre ++ bad :: post) =
      some (PageErr.templateNotFound tp) := by
    rw [firstPageErr_all_ok env path pre hpre (bad :: post)]
    simp only [firstPageErr]
    rw [hbad]
  rw [heff, herr]
  rfl

/-- Witness for C7: a directory with one good page and one page naming a
missing template; the good sibling's write is present and the directory
rejects with `TemplateNotFound`. -/
theorem processDirectory_templateNotFound_isolated_witness :
    processDirectory envDefault "pages" (([goodFile] ++ badFile :: []).map fileEntry) =
      (filesEffects envDefault "pages" [goodFile] ++ filesEffects envDefault "pages" [],
       some (PageErr.templateNotFound "templates/nope.html")) :=
  processDirectory_templateNotFound_isolated envDefault "pages" [goodFile] [] badFile
    "templates/nope.html" (by decide) rfl
    (by
      intro f hf
      rw [List.mem_singleton] at hf
      subst hf
      exact ⟨_, rfl⟩)
    (by
      intro f hf
      exact absurd hf (List.not_mem_nil f))

/-! ## Lemmas about comment threading -/

theorem insertAfterParent_of_not_mem (parent cid : String) :
    ∀ acc : List String, parent ∉ acc → insertAfterParent parent cid acc = none := by
  intro acc
  induction acc with
  | nil => intro _; rfl
  | cons y ys ih =>
    intro h
    have hy : ¬ (y = parent) := fun he => h (by rw [← he]; exact List.mem_cons_self y ys)
    simp only [insertAfterParent]
    rw [if_neg hy, ih (fun hm => h (List.mem_cons_of_mem y hm))]
    rfl

theorem threadComments_append_ok (pre : List CommentYml) (acc : List String)
    (h : threadComments pre = Except.ok acc) :
    ∀ rest, threadComments (pre ++ rest) = rest.foldlM addComment acc := by
  intro rest
  unfold threadComments at h ⊢
  rw [List.foldlM_append, h]
  rfl

/-! ## Claim C9 -/

/-- C9 (amended): a reply comment whose `replying_to_uid` matches no
previously rendered comment does not fail silently and does not produce a
dangling node: `querySelector` returns `null`, the `.after` call on it
throws a TypeError, and the whole comment-rendering loop (and with it the
aggregation step that awaited it) rejects. -/
theorem threadComments_missing_parent_throws (pre post : List CommentYml) (c : CommentYml)
    (acc : List String) (p : String)
    (hpre : threadComments pre = Except.ok acc)
    (hc : c.replying_to_uid = some p)
    (hnp : ("comment-" ++ p) ∉ acc) :
    threadComments (pre ++ c :: post) = Except.error (CommentErr.nullParent p) := by
  rw [threadComments_append_ok pre acc hpre (c :: post)]
  have hstep : addComment acc c = Except.error (CommentErr.nullParent p) := by
    simp only [addComment, hc]
    rw [insertAfterParent_of_not_mem ("comment-" ++ p) ("comment-" ++ c._id) acc hnp]
  simp only [List.foldlM_cons, hstep]
  rfl

/-- Counterexample for C9 as stated: threading a single reply whose parent
id was never rendered raises the null-parent TypeError instead of
silently producing a dangling node. -/
theorem threadComments_missing_parent_counterexample :
    threadComments [replyNoParent] = Except.error (CommentErr.nullParent "1") := rfl

/-- Witness for C9 (amended): one rendered top-level comment, then a reply
to an id that does not exist; the loop rejects. -/
theorem threadComments_missing_parent_throws_witness :
    threadComments ([topComment] ++ badReply :: []) =
      Except.error (CommentErr.nullParent "9") :=
  threadComments_missing_parent_throws [topComment] [] badReply ["comment-1"] "9"
    rfl rfl (by decide)
